import Mathlib

/-!
Verification of the AI-Powered Web Terminal gateway (TypeScript sources) via a
shallow embedding in Lean 4.  Each section embeds one part of the source
(shared utilities, the auth/profile controllers, the rate limiter, the SSH
connection manager, the socket handler, the credential vault) as executable
Lean definitions, and the theorems at the end settle the specification's
claims against those definitions.

Conventions: JavaScript strings become `String`/`List Char`, byte buffers
become `List Nat` with values `< 256`, JS `Map` becomes an association list,
and fallible operations return `Option`/`Except`.
-/

/-! ## Shared utilities (shared/src/utils: part_005)

`jsWhitespace` is the character set of the JavaScript regex class `\s`
(ECMAScript WhiteSpace ∪ LineTerminator).  `jsToLowerChar` is
`String.prototype.toLowerCase` restricted to one code point; for the ASCII
range relevant to the embedded regexes it maps `A`–`Z` to `a`–`z` and fixes
everything else. -/

def jsWhitespace (c : Char) : Bool :=
  let n := c.toNat
  n == 0x09 || n == 0x0A || n == 0x0B || n == 0x0C || n == 0x0D || n == 0x20 ||
  n == 0xA0 || n == 0x1680 || (decide (0x2000 ≤ n) && decide (n ≤ 0x200A)) ||
  n == 0x2028 || n == 0x2029 || n == 0x202F || n == 0x205F || n == 0x3000 ||
  n == 0xFEFF

def jsToLowerChar (c : Char) : Char :=
  if 0x41 ≤ c.toNat ∧ c.toNat ≤ 0x5A then Char.ofNat (c.toNat + 32) else c

/-- Consume the literal `pat` from the front of `l`; the rest on success. -/
def expectLit : List Char → List Char → Option (List Char)
  | [], l => some l
  | _ :: _, [] => none
  | p :: ps, c :: cs => if c = p then expectLit ps cs else none

/-- `\s*` (greedy; the following pattern element is never whitespace, so the
greedy match agrees with the backtracking regex). -/
def wsStar (l : List Char) : List Char := l.dropWhile jsWhitespace

/-- `\s+` (greedy, at least one whitespace character). -/
def wsPlus1 : List Char → Option (List Char)
  | [] => none
  | c :: cs => if jsWhitespace c then some (wsStar cs) else none

/-- `x?` for a single literal character `x` (the following pattern element is
never `x`, so consuming greedily agrees with the backtracking regex). -/
def optChar (c : Char) : List Char → List Char
  | [] => []
  | x :: xs => if x = c then xs else x :: xs

/-- Does `t` accept some suffix of the input?  This is an unanchored regex
search: the pattern may start at any position. -/
def anySuffix (t : List Char → Bool) : List Char → Bool
  | [] => t []
  | c :: cs => t (c :: cs) || anySuffix t cs

/-! The fourteen `dangerousPatterns` regexes of `isDangerousCommand`
(part_005 lines 27–46), one matcher per regex, in source order. -/

/-- `/^\s*rm\s+-rf?\s+\//` -/
def patRmRoot (l : List Char) : Bool :=
  (do
    let l1 ← expectLit "rm".data (wsStar l)
    let l2 ← wsPlus1 l1
    let l3 ← expectLit "-r".data l2
    let l4 ← wsPlus1 (optChar 'f' l3)
    let _ ← expectLit "/".data l4
    pure ()).isSome

/-- `/^\s*sudo\s+rm\s+-rf?\s+\//` -/
def patSudoRmRoot (l : List Char) : Bool :=
  (do
    let l1 ← expectLit "sudo".data (wsStar l)
    let l2 ← wsPlus1 l1
    let l3 ← expectLit "rm".data l2
    let l4 ← wsPlus1 l3
    let l5 ← expectLit "-r".data l4
    let l6 ← wsPlus1 (optChar 'f' l5)
    let _ ← expectLit "/".data l6
    pure ()).isSome

/-- `/^\s*dd\s+if=/` -/
def patDdIf (l : List Char) : Bool :=
  (do
    let l1 ← expectLit "dd".data (wsStar l)
    let l2 ← wsPlus1 l1
    let _ ← expectLit "if=".data l2
    pure ()).isSome

/-- `/^\s*mkfs/`, `/^\s*fdisk/`, `/^\s*shutdown/`, `/^\s*reboot/`,
`/^\s*halt/`, `/^\s*poweroff/`, `/^\s*killall/`: a bare keyword after
optional whitespace. -/
def patKeyword (kw : String) (l : List Char) : Bool :=
  (expectLit kw.data (wsStar l)).isSome

/-- `/^\s*kill\s+-9\s+1$/` -/
def patKillInit (l : List Char) : Bool :=
  (do
    let l1 ← expectLit "kill".data (wsStar l)
    let l2 ← wsPlus1 l1
    let l3 ← expectLit "-9".data l2
    let l4 ← wsPlus1 l3
    let l5 ← expectLit "1".data l4
    if l5 = [] then some () else none).isSome

/-- `/^\s*pkill\s+-f/` -/
def patPkillF (l : List Char) : Bool :=
  (do
    let l1 ← expectLit "pkill".data (wsStar l)
    let l2 ← wsPlus1 l1
    let _ ← expectLit "-f".data l2
    pure ()).isSome

/-- `/>\s*\/dev\/sd[a-z]/` and `/>\s*\/dev\/hd[a-z]/`, the part after the
anchorless start: `>` then `\s*` then the device path then one letter. -/
def patDevWriteHere (dev : String) : List Char → Bool
  | '>' :: rest =>
    match expectLit dev.data (wsStar rest) with
    | some (c :: _) => decide ('a' ≤ c) && decide (c ≤ 'z')
    | _ => false
  | _ => false

def dangerousPatterns : List (List Char → Bool) :=
  [patRmRoot, patSudoRmRoot, patDdIf,
   patKeyword "mkfs", patKeyword "fdisk", patKeyword "shutdown",
   patKeyword "reboot", patKeyword "halt", patKeyword "poweroff",
   patKillInit, patPkillF, patKeyword "killall",
   anySuffix (patDevWriteHere "/dev/sd"), anySuffix (patDevWriteHere "/dev/hd")]

/-- `isDangerousCommand` (part_005 lines 27–46): lower-case the command text
and test it against the fixed pattern list. -/
def isDangerousCommand (command : String) : Bool :=
  dangerousPatterns.any fun pat => pat (command.data.map jsToLowerChar)

/-! ## Password and email validation (part_005 lines 62–71) -/

def isAsciiLowerAlpha (c : Char) : Bool := decide ('a' ≤ c) && decide (c ≤ 'z')

def isAsciiUpperAlpha (c : Char) : Bool := decide ('A' ≤ c) && decide (c ≤ 'Z')

def isAsciiDigit (c : Char) : Bool := decide ('0' ≤ c) && decide (c ≤ '9')

/-- ECMAScript LineTerminator (what `.` does not match). -/
def jsLineTerminator (c : Char) : Bool :=
  c == '\n' || c == '\r' || c == '\u2028' || c == '\u2029'

/-- The character class `[a-zA-Z\d@$!%*?&]` of the password regex. -/
def pwClassChar (c : Char) : Bool :=
  isAsciiLowerAlpha c || isAsciiUpperAlpha c || isAsciiDigit c ||
  ['@', '$', '!', '%', '*', '?', '&'].contains c

/-- The lookahead `(?=.*[cls])` anchored at the start of the string: some
character satisfying `cls` is reachable over non-LineTerminator characters. -/
def lookaheadDotStar (cls : Char → Bool) : List Char → Bool
  | [] => false
  | c :: rest => cls c || (!jsLineTerminator c && lookaheadDotStar cls rest)

/-- `isStrongPassword` (part_005 lines 67–71): the regex
`/^(?=.*[a-z])(?=.*[A-Z])(?=.*\d)[a-zA-Z\d@$!%*?&]{8,}$/`: three lookaheads,
then the anchored body, which is: every character in the class and at least
eight of them. -/
def isStrongPassword (password : String) : Bool :=
  lookaheadDotStar isAsciiLowerAlpha password.data &&
  lookaheadDotStar isAsciiUpperAlpha password.data &&
  lookaheadDotStar isAsciiDigit password.data &&
  (password.data.all pwClassChar && decide (8 ≤ password.data.length))

/-- The character class `[^\s@]` of the email regex. -/
def emailAtomChar (c : Char) : Bool := !jsWhitespace c && c != '@'

/-- `isValidEmail` (part_005 lines 62–65): the regex
`/^[^\s@]+@[^\s@]+\.[^\s@]+$/`: exactly one `@`, a nonempty local part, and a
domain containing a `.` that is neither its first nor its last character; no
whitespace anywhere. -/
def isValidEmail (email : String) : Bool :=
  match email.data.splitOn '@' with
  | [a, r] =>
    !a.isEmpty && a.all emailAtomChar && r.all emailAtomChar &&
    (r.drop 1).dropLast.contains '.'
  | _ => false

/-- The validation prefix of `AuthController.register` (AuthController.ts
lines 35–62): missing field, bad email and weak password each answer 400 with
the quoted error message before any database access. -/
def registerValidationError (email password name : String) :
    Option (Nat × String) :=
  if email.isEmpty || password.isEmpty || name.isEmpty then
    some (400, "Email, password, and name are required")
  else if !isValidEmail email then
    some (400, "Invalid email format")
  else if !isStrongPassword password then
    some (400, "Password must be at least 8 characters long and contain uppercase, lowercase, and number")
  else none

/-! ## SSH connection manager (SSHManager, rateLimit.ts part 3, lines 369–644)

The manager owns `connections : Map<string, SSHConnection>`; we model the map
as an association list and each volatile connection record by the fields the
claims touch. -/

inductive SSHStatus
  | disconnected | connecting | connected | error | reconnecting
deriving DecidableEq, Repr

structure TerminalDimensions where
  cols : Nat
  rows : Nat
deriving DecidableEq, Repr

/-- `parseTerminalDimensions` (part_005 lines 54–59):
`cols := Math.max(1, Math.min(cols, 300))`, `rows := Math.max(1, Math.min(rows, 100))`. -/
def parseTerminalDimensions (cols rows : Nat) : TerminalDimensions :=
  { cols := max 1 (min cols 300), rows := max 1 (min rows 100) }

structure SSHConnectionM where
  status : SSHStatus
  dimensions : TerminalDimensions
  hasShell : Bool
deriving DecidableEq, Repr

inductive SSHEvent
  | statusChange (connectionId : String) (status : SSHStatus) (error : Option String)
  | data (connectionId : String) (payload : String)
deriving DecidableEq, Repr

abbrev ConnMap := List (String × SSHConnectionM)

def mapGet (m : ConnMap) (k : String) : Option SSHConnectionM :=
  (m.find? fun p => p.1 == k).map (·.2)

def mapDelete (m : ConnMap) (k : String) : ConnMap :=
  m.filter fun p => p.1 != k

def mapSet (m : ConnMap) (k : String) (v : SSHConnectionM) : ConnMap :=
  (k, v) :: mapDelete m k

/-- The successful path of `SSHManager.createConnection` (lines 399–472): the
record is inserted with status CONNECTING (emitting `statusChange`), the dial
and shell request succeed, and the record ends CONNECTED with a live shell and
the default 80×24 dimensions (emitting `statusChange` again). -/
def createConnectionOk (m : ConnMap) (connectionId : String) :
    ConnMap × List SSHEvent :=
  (mapSet m connectionId
      { status := .connected, dimensions := ⟨80, 24⟩, hasShell := true },
   [.statusChange connectionId .connecting none,
    .statusChange connectionId .connected none])

/-- `SSHManager.resizeTerminal` (lines 488–500): rejects when the connection
is absent, not CONNECTED, or has no shell; otherwise stores the supplied
dimensions unchanged and calls `shell.setWindow(rows, cols)` (returned here as
the pair of arguments). -/
def resizeTerminal (m : ConnMap) (connectionId : String)
    (dimensions : TerminalDimensions) :
    Except String (ConnMap × Nat × Nat) :=
  match mapGet m connectionId with
  | none => .error "Connection not available"
  | some c =>
    if c.status != .connected then .error "Connection not available"
    else if !c.hasShell then .error "Shell not available"
    else .ok (mapSet m connectionId { c with dimensions := dimensions },
              dimensions.rows, dimensions.cols)

/-- `SSHManager.closeConnection` (lines 502–519): absent id → return with no
event; otherwise end the shell, dispose the client, delete the record and emit
one `statusChange(DISCONNECTED)`. -/
def closeConnection (m : ConnMap) (connectionId : String) :
    ConnMap × List SSHEvent :=
  match mapGet m connectionId with
  | none => (m, [])
  | some _ =>
    (mapDelete m connectionId,
     [.statusChange connectionId .disconnected none])

/-! ## Profile store (ProfileController, AuthController.ts part 2, lines 256–669)

The `ssh_profiles` relation is modelled as a list of rows; SQL `WHERE`
clauses become filters/finds over it. -/

structure DBProfile where
  id : String
  user_id : String
  name : String
  host : String
  port : Nat
  username : String
  auth_method : String
  encrypted_credentials : String
  created_at : String
  last_used : Option String
  is_active : Nat
deriving DecidableEq, Repr

/-- The column list of `getProfiles`' SELECT (lines 301–306): every column of
the row except `user_id` and `encrypted_credentials`. -/
structure ProfileRow where
  id : String
  name : String
  host : String
  port : Nat
  username : String
  auth_method : String
  created_at : String
  last_used : Option String
  is_active : Nat
deriving DecidableEq, Repr

def toProfileRow (p : DBProfile) : ProfileRow :=
  { id := p.id, name := p.name, host := p.host, port := p.port,
    username := p.username, auth_method := p.auth_method,
    created_at := p.created_at, last_used := p.last_used,
    is_active := p.is_active }

/-- `ORDER BY last_used DESC, created_at DESC` on datetime strings; SQLite
sorts NULL last under DESC. -/
def lastUsedGe : Option String → Option String → Bool
  | some a, some b => decide (b ≤ a)
  | some _, none => true
  | none, some _ => false
  | none, none => true

def profileRowBefore (a b : ProfileRow) : Bool :=
  if a.last_used = b.last_used then decide (b.created_at ≤ a.created_at)
  else lastUsedGe a.last_used b.last_used

/-- `ProfileController.getProfiles` (lines 297–320):
`WHERE user_id = ? AND is_active = 1`, the credential-free column list,
`ORDER BY last_used DESC, created_at DESC`. -/
def getProfiles (db : List DBProfile) (userId : String) : List ProfileRow :=
  (((db.filter fun p => p.user_id == userId && p.is_active == 1).map
      toProfileRow).mergeSort profileRowBefore)

/-- The duplicate-name check of `ProfileController.createProfile`
(lines 386–397): `WHERE user_id = ? AND name = ? AND is_active = 1`. -/
def profileNameConflict (db : List DBProfile) (userId nm : String) : Bool :=
  (db.find? fun p => p.user_id == userId && p.name == nm && p.is_active == 1).isSome

/-- The row lookup shared by `updateProfile` (lines 465–468), `deleteProfile`,
`testConnection` and `SocketHandler.handleSSHConnect` (lines 76–80):
`WHERE id = ? AND user_id = ? AND is_active = 1`. -/
def findActiveProfile (db : List DBProfile) (profileId userId : String) :
    Option DBProfile :=
  db.find? fun p => p.id == profileId && p.user_id == userId && p.is_active == 1

/-- `updateProfile`'s not-found gate (lines 465–476): when the lookup misses,
the request is answered 404 "Profile not found" before any update runs. -/
def updateProfileNotFound (db : List DBProfile) (userId profileId : String) :
    Option (Nat × String) :=
  if (findActiveProfile db profileId userId).isSome then none
  else some (404, "Profile not found")

/-! ## Socket handler (SocketHandler.ts) -/

inductive ClientEvent
  | sshStatus (sessionId : String) (status : SSHStatus) (error : Option String)
  | terminalOutput (sessionId : String) (output : String)
deriving DecidableEq, Repr

/-- The profile-resolution gate of `SocketHandler.handleSSHConnect`
(lines 64–89): CONNECTING is emitted, then the active-profile lookup; on a
miss the handler emits `ssh:status` ERROR "Profile not found" and returns.
Result: `some emittedEvents` when the lookup misses, `none` when the handler
proceeds to decrypt and dial. -/
def handleSSHConnectMissing (db : List DBProfile)
    (userId sessionId profileId : String) : Option (List ClientEvent) :=
  if (findActiveProfile db profileId userId).isSome then none
  else some [.sshStatus sessionId .connecting none,
             .sshStatus sessionId .error (some "Profile not found")]

/-- `SocketHandler.handleTerminalInput` (lines 199–208): look up the
session in the broker's `userSessions` map; only when both the connection id
and the payload are truthy is the payload forwarded to
`sshManager.sendCommand`.  Nothing is ever emitted to the client (errors are
logged only) and `userSessions` is not modified.  Result: (session map after,
forwarded `sendCommand(connectionId, data)` calls, events emitted to the
client). -/
def handleTerminalInput (sessions : List (String × String))
    (sessionId payload : String) :
    List (String × String) × List (String × String) × List ClientEvent :=
  match (sessions.find? fun p => p.1 == sessionId).map (·.2) with
  | some connectionId =>
    if !connectionId.isEmpty && !payload.isEmpty then
      (sessions, [(connectionId, payload)], [])
    else (sessions, [], [])
  | none => (sessions, [], [])

/-! ## Identity service: login (AuthController.ts lines 133–204) -/

structure DBUser where
  id : String
  email : String
  name : String
  password_hash : String
  created_at : String
  last_login : Option String
  preferences : String
deriving DecidableEq, Repr

structure ErrorResponse where
  status : Nat
  success : Bool
  error : String
deriving DecidableEq, Repr

inductive LoginResult
  | failure (response : ErrorResponse)
  | success (userId : String)
deriving DecidableEq, Repr

/-- `AuthController.login`: missing fields → 400; unknown email → 401
"Invalid email or password"; known email with failing password check → the
same 401 body; otherwise success.  `verify` abstracts `bcrypt.compare`. -/
def login (verify : String → String → Bool) (db : List DBUser)
    (email password : String) : LoginResult :=
  if email.isEmpty || password.isEmpty then
    .failure ⟨400, false, "Email and password are required"⟩
  else
    match db.find? fun u => u.email == email with
    | none => .failure ⟨401, false, "Invalid email or password"⟩
    | some u =>
      if verify password u.password_hash then .success u.id
      else .failure ⟨401, false, "Invalid email or password"⟩

/-! ## Rate limiting (rateLimit.ts lines 1–56, index.ts line 47,
AuthController.ts lines 29–33)

`rate-limiter-flexible`'s `RateLimiterMemory` keeps one record per key with a
consumed-points counter and an expiry; `consume(key, 1)` increments (or starts
a fresh window), rejects once the counter exceeds `points`, and on the first
over-limit consume re-arms the record for `blockDuration` seconds. -/

structure RLRecord where
  consumedPoints : Nat
  expiresAt : Nat
deriving DecidableEq, Repr

structure RLOutcome where
  allowed : Bool
  msBeforeNext : Nat
  state : Option RLRecord
deriving DecidableEq, Repr

def rlConsume (points durationSec blockDurationSec now : Nat)
    (state : Option RLRecord) : RLOutcome :=
  let r : RLRecord :=
    match state with
    | some r =>
      if now < r.expiresAt then ⟨r.consumedPoints + 1, r.expiresAt⟩
      else ⟨1, now + durationSec * 1000⟩
    | none => ⟨1, now + durationSec * 1000⟩
  if points < r.consumedPoints then
    if 0 < blockDurationSec ∧ r.consumedPoints ≤ points + 1 then
      ⟨false, blockDurationSec * 1000,
       some ⟨r.consumedPoints, now + blockDurationSec * 1000⟩⟩
    else ⟨false, r.expiresAt - now, some r⟩
  else ⟨true, r.expiresAt - now, some r⟩

/-- `Math.round(msBeforeNext / 1000) || 1` (rateLimit.ts lines 29, 48). -/
def retryAfterSecs (ms : Nat) : Nat :=
  let s := (ms + 500) / 1000
  if s = 0 then 1 else s

inductive HttpLoginResponse
  | unauthorized
  | rateLimited (retryAfter : Nat) (error : String)
deriving DecidableEq, Repr

/-- One wrong-password `POST /api/auth/login` from a single source address.
The app-level `rateLimitMiddleware` (index.ts line 47) picks `authRateLimiter`
because the request path contains `/auth/` (rateLimit.ts line 24), and the
route-level `authRateLimit` (AuthController.ts line 31) consumes from the very
same `authRateLimiter` (points 5, duration 900 s, blockDuration 900 s), so an
admitted request costs two points.  An admitted request reaches the handler
and, with a wrong password, answers 401. -/
def loginRequestWrongPassword (now : Nat) (st : Option RLRecord) :
    HttpLoginResponse × Option RLRecord :=
  let o1 := rlConsume 5 900 900 now st
  if !o1.allowed then
    (.rateLimited (retryAfterSecs o1.msBeforeNext) "Too many requests", o1.state)
  else
    let o2 := rlConsume 5 900 900 now o1.state
    if !o2.allowed then
      (.rateLimited (retryAfterSecs o2.msBeforeNext) "Too many authentication attempts",
       o2.state)
    else (.unauthorized, o2.state)

/-- `n` rapid wrong-password logins (all at timestamp `now`). -/
def loginSequence (now : Nat) : Nat → Option RLRecord → List HttpLoginResponse
  | 0, _ => []
  | n + 1, st =>
    let r := loginRequestWrongPassword now st
    r.1 :: loginSequence now n r.2

/-- `n` consumes against the bare auth bucket, reporting each outcome's
admission flag and `retryAfter` hint. -/
def rlConsumeSeq (now : Nat) : Nat → Option RLRecord → List (Bool × Nat)
  | 0, _ => []
  | n + 1, st =>
    let o := rlConsume 5 900 900 now st
    (o.allowed, retryAfterSecs o.msBeforeNext) :: rlConsumeSeq now n o.state

/-! ## Reconnection (SSHManager lines 533–621) -/

structure SSHCredentialsM where
  host : String
  port : Nat
  username : String
  password : Option String
  privateKey : Option String
  passphrase : Option String
deriving DecidableEq, Repr

structure SSHConfig where
  host : String
  port : Nat
  username : String
  password : Option String
  privateKey : Option String
  passphrase : Option String
deriving DecidableEq, Repr

/-- JavaScript truthiness of an optional string field (`undefined` and `""`
are falsy). -/
def jsTruthyStr : Option String → Bool
  | none => false
  | some s => !s.isEmpty

/-- The connection config built by `createConnection` (lines 417–433):
host/port/username plus the first truthy credential (password, else private
key with optional passphrase). -/
def createConnectionConfig (credentials : SSHCredentialsM) : SSHConfig :=
  let base : SSHConfig :=
    { host := credentials.host, port := credentials.port,
      username := credentials.username,
      password := none, privateKey := none, passphrase := none }
  if jsTruthyStr credentials.password then
    { base with password := credentials.password }
  else if jsTruthyStr credentials.privateKey then
    { base with privateKey := credentials.privateKey,
                passphrase := if jsTruthyStr credentials.passphrase then
                  credentials.passphrase else none }
  else base

/-- The connection config rebuilt by `attemptReconnection` (lines 571–586)
from `connection.credentials`, the decrypted snapshot stored at creation. -/
def reconnectionConfig (credentials : SSHCredentialsM) : SSHConfig :=
  let base : SSHConfig :=
    { host := credentials.host, port := credentials.port,
      username := credentials.username,
      password := none, privateKey := none, passphrase := none }
  if jsTruthyStr credentials.password then
    { base with password := credentials.password }
  else if jsTruthyStr credentials.privateKey then
    { base with privateKey := credentials.privateKey,
                passphrase := if jsTruthyStr credentials.passphrase then
                  credentials.passphrase else none }
  else base

/-- The status assignments performed on a connection record after a shell
`close` event at time `t` (handleConnectionClose, lines 533–540, then
attemptReconnection, lines 551–621): DISCONNECTED is set and emitted at once;
a single `setTimeout(…, 5000)` is scheduled; when it fires the status becomes
RECONNECTING (set and emitted), the redial runs for `dialMs`, and the outcome
is CONNECTED on success or ERROR on failure — the failure branch schedules no
further timer. -/
def shellCloseAssignments (t dialMs : Nat) (reconnectOk : Bool) :
    List (Nat × SSHStatus) :=
  [(t, .disconnected), (t + 5000, .reconnecting),
   (t + 5000 + dialMs, if reconnectOk then .connected else .error)]

/-- The same for a transport `error` event (handleConnectionError, lines
542–549): the immediate status is ERROR instead of DISCONNECTED. -/
def transportErrorAssignments (t dialMs : Nat) (reconnectOk : Bool) :
    List (Nat × SSHStatus) :=
  [(t, .error), (t + 5000, .reconnecting),
   (t + 5000 + dialMs, if reconnectOk then .connected else .error)]

/-- The connection's status at time `q` given its assignment log: the last
assignment at or before `q` (CONNECTED before the event). -/
def statusAt (assignments : List (Nat × SSHStatus)) (q : Nat) : SSHStatus :=
  assignments.foldl (fun acc p => if p.1 ≤ q then p.2 else acc) .connected

/-! ## Credential vault (ProfileController lines 399–435 and 637–664)

Profile secrets are encrypted with `CryptoJS.AES.encrypt(secret, key)` and
recovered with `CryptoJS.AES.decrypt(…).toString(CryptoJS.enc.Utf8)`.  A
CryptoJS ciphertext string is `Base64("Salted__" ++ salt ++ AES-256-CBC
ciphertext)`; key and IV are derived from the passphrase and the salt by
EvpKDF (MD5).  We embed the Base64 codec, the CBC mode, the PKCS#7 padding
and the UTF-8 decoding concretely; the keyed AES block transforms and the
KDF are abstracted as a parameter `kdf : salt → VaultCipher`. -/

def b64Map : List Char :=
  "ABCDEFGHIJKLMNOPQRSTUVWXYZabcdefghijklmnopqrstuvwxyz0123456789+/".data

/-- `map.charAt(v)` (`'='` is `map.charAt(64)`, the padding character). -/
def b64Char (v : Nat) : Char := b64Map.getD v '='

/-- `reverseMap[c]` for characters of the map (others never reach it on the
inputs considered here; `findIdx` then yields 64). -/
def b64Val (c : Char) : Nat := b64Map.findIdx (· == c)

/-- CryptoJS `Base64.stringify`: groups of three bytes into four map
characters, `=`-padded to a multiple of four.  The source computes
`(b0 << 16) | (b1 << 8) | b2` and extracts `(triplet >>> (6*(3-j))) & 63`;
for byte values the or-ed ranges are disjoint, so the bit operations coincide
with the division/modulus arithmetic written here. -/
def b64EncodeLoop : List Nat → List Char
  | b0 :: b1 :: b2 :: rest =>
    let t := b0 * 65536 + b1 * 256 + b2
    b64Char (t / 262144 % 64) :: b64Char (t / 4096 % 64) ::
    b64Char (t / 64 % 64) :: b64Char (t % 64) :: b64EncodeLoop rest
  | [b0, b1] =>
    let t := b0 * 65536 + b1 * 256
    [b64Char (t / 262144 % 64), b64Char (t / 4096 % 64), b64Char (t / 64 % 64), '=']
  | [b0] =>
    let t := b0 * 65536
    [b64Char (t / 262144 % 64), b64Char (t / 4096 % 64), '=', '=']
  | [] => []

/-- CryptoJS `Base64.parse`'s inner loop: the byte at index `i` (for
`i % 4 ≠ 0`) is `reverseMap[s[i-1]] << (i%4*2) | reverseMap[s[i]] >>> (6-i%4*2)`,
truncated to a byte when read back out of the word array.  The or-ed ranges
are disjoint and the index pattern has period four, giving the grouped
recursion below. -/
def b64ParseLoop : List Char → List Nat
  | c0 :: c1 :: c2 :: c3 :: rest =>
    (b64Val c0 * 4 + b64Val c1 / 16) % 256 ::
    (b64Val c1 * 16 + b64Val c2 / 4) % 256 ::
    (b64Val c2 * 64 + b64Val c3) % 256 :: b64ParseLoop rest
  | [c0, c1, c2] =>
    [(b64Val c0 * 4 + b64Val c1 / 16) % 256,
     (b64Val c1 * 16 + b64Val c2 / 4) % 256]
  | [c0, c1] => [(b64Val c0 * 4 + b64Val c1 / 16) % 256]
  | _ => []

/-- CryptoJS `Base64.parse`: the input is cut at the first `=` (the padding
character) and the loop runs on what precedes it. -/
def b64Parse (cs : List Char) : List Nat :=
  b64ParseLoop (cs.take (cs.findIdx (· == '=')))

/-- `Pkcs7.pad`: always appends `n = 16 - len % 16` bytes of value `n`. -/
def pkcs7Pad (data : List Nat) : List Nat :=
  let n := 16 - data.length % 16
  data ++ List.replicate n n

/-- `Pkcs7.unpad`: reads the last byte and shortens by that many bytes —
CryptoJS performs no validation of the padding bytes. -/
def pkcs7Unpad (data : List Nat) : List Nat :=
  data.take (data.length - data.getLastD 0)

def xorBytes (a b : List Nat) : List Nat := List.zipWith (fun x y => x ^^^ y) a b

/-- Split a byte string into 16-byte cipher blocks (a shorter final chunk is
kept as its own block; CryptoJS ciphertexts are always a multiple of 16). -/
def toBlocks : List Nat → List (List Nat)
  | b0 :: b1 :: b2 :: b3 :: b4 :: b5 :: b6 :: b7 ::
      b8 :: b9 :: b10 :: b11 :: b12 :: b13 :: b14 :: b15 :: rest =>
    [b0, b1, b2, b3, b4, b5, b6, b7, b8, b9, b10, b11, b12, b13, b14, b15] ::
      toBlocks rest
  | [] => []
  | l => [l]

/-- CBC encryption: each block is xor-ed with the previous ciphertext block
(initially the IV) and sent through the block cipher. -/
def cbcEncryptBlocks (enc : List Nat → List Nat) (prev : List Nat) :
    List (List Nat) → List (List Nat)
  | [] => []
  | b :: rest =>
    let c := enc (xorBytes prev b)
    c :: cbcEncryptBlocks enc c rest

/-- CBC decryption: each block goes through the inverse cipher and is xor-ed
with the previous ciphertext block (initially the IV). -/
def cbcDecryptBlocks (dec : List Nat → List Nat) (prev : List Nat) :
    List (List Nat) → List (List Nat)
  | [] => []
  | c :: rest => xorBytes prev (dec c) :: cbcDecryptBlocks dec c rest

/-- Standard UTF-8 decoding of a byte string, `none` on a malformed sequence
(this is where `bytes.toString(CryptoJS.enc.Utf8)` throws).  Continuation
bytes are validated; the overlong/surrogate fine points beyond the `0xC2`
lower bound are not modelled — the development only ever decodes ASCII
plaintexts. -/
def utf8Decode : List Nat → Option (List Char)
  | [] => some []
  | b :: rest =>
    if b < 0x80 then (utf8Decode rest).map fun cs => Char.ofNat b :: cs
    else if b < 0xC2 then none
    else if b < 0xE0 then
      match rest with
      | b2 :: rest2 =>
        if 0x80 ≤ b2 ∧ b2 < 0xC0 then
          (utf8Decode rest2).map fun cs =>
            Char.ofNat ((b - 0xC0) * 64 + (b2 - 0x80)) :: cs
        else none
      | [] => none
    else if b < 0xF0 then
      match rest with
      | b2 :: b3 :: rest3 =>
        if (0x80 ≤ b2 ∧ b2 < 0xC0) ∧ 0x80 ≤ b3 ∧ b3 < 0xC0 then
          (utf8Decode rest3).map fun cs =>
            Char.ofNat ((b - 0xE0) * 4096 + (b2 - 0x80) * 64 + (b3 - 0x80)) :: cs
        else none
      | _ => none
    else if b < 0xF5 then
      match rest with
      | b2 :: b3 :: b4 :: rest4 =>
        if (0x80 ≤ b2 ∧ b2 < 0xC0) ∧ (0x80 ≤ b3 ∧ b3 < 0xC0) ∧
            (0x80 ≤ b4 ∧ b4 < 0xC0) then
          (utf8Decode rest4).map fun cs =>
            Char.ofNat ((b - 0xF0) * 262144 + (b2 - 0x80) * 4096 +
              (b3 - 0x80) * 64 + (b4 - 0x80)) :: cs
        else none
      | _ => none
    else none

/-- The keyed cipher material CryptoJS derives from the passphrase and a
salt: the AES-256 block encryption and decryption and the IV.  (The MD5-based
EvpKDF and the AES round functions themselves are opaque here; every theorem
about the vault is proved for an arbitrary `kdf`, hence holds for the real
one.) -/
structure VaultCipher where
  encBlock : List Nat → List Nat
  decBlock : List Nat → List Nat
  iv : List Nat

/-- The bytes of the `"Salted__"` OpenSSL header. -/
def saltedMagic : List Nat := [0x53, 0x61, 0x6C, 0x74, 0x65, 0x64, 0x5F, 0x5F]

/-- `CryptoJS.AES.encrypt(message, ENCRYPTION_KEY).toString()` (createProfile,
lines 399–414): derive key material from the salt, pad the message, CBC
encrypt, and render `Base64("Salted__" ++ salt ++ ciphertext)`. -/
def vaultEncrypt (kdf : List Nat → VaultCipher) (salt msg : List Nat) :
    List Char :=
  let c := kdf salt
  b64EncodeLoop
    (saltedMagic ++ salt ++
      (cbcEncryptBlocks c.encBlock c.iv (toBlocks (pkcs7Pad msg))).flatten)

/-- `CryptoJS.AES.decrypt(str, ENCRYPTION_KEY).toString(CryptoJS.enc.Utf8)` as
used by `decryptCredentials` (lines 637–664): parse the Base64, recognise the
`"Salted__"` header, take the salt, rederive key material, CBC decrypt, strip
the PKCS#7 padding by its final byte (unvalidated) and decode UTF-8.  `none`
models the thrown error that `decryptCredentials` converts into
"Failed to decrypt credentials" (a header mismatch would make CryptoJS derive
a fresh random salt, so no plaintext is deterministically recovered: also
`none`). -/
def vaultDecrypt (kdf : List Nat → VaultCipher) (s : List Char) :
    Option (List Char) :=
  let bytes := b64Parse s
  if bytes.take 8 = saltedMagic then
    let salt := (bytes.drop 8).take 8
    let c := kdf salt
    utf8Decode (pkcs7Unpad
      ((cbcDecryptBlocks c.decBlock c.iv (toBlocks (bytes.drop 16))).flatten))
  else none

/-- Replace the character at position `i` by its Base64 sibling: the map
character whose 6-bit value differs exactly in the lowest bit. -/
def tamperB64Char (c : Char) : Char := b64Char (b64Val c ^^^ 1)

def tamperAt (i : Nat) (cs : List Char) : List Char :=
  cs.set i (tamperB64Char (cs.getD i 'A'))

/-- Failing input for the tamper claim: the plaintext secret `"s3cretpw"`. -/
def vaultDemoMsg : List Nat := [0x73, 0x33, 0x63, 0x72, 0x65, 0x74, 0x70, 0x77]

/-- Failing input for the tamper claim: a fixed 8-byte salt. -/
def vaultDemoSalt : List Nat := [1, 2, 3, 4, 5, 6, 7, 8]

/-- A concrete key-derivation instance (complement cipher, zero IV) used to
instantiate the vault theorems at a closed input. -/
def involutionKdf : List Nat → VaultCipher := fun _ =>
  { encBlock := fun b => b.map fun x => 255 - x,
    decBlock := fun b => b.map fun x => 255 - x,
    iv := List.replicate 16 0 }

/-- The single ciphertext block of the failing input: the padded plaintext,
xor-ed with the IV and sent through the (abstract) block cipher. -/
def vaultDemoBlock (kdf : List Nat → VaultCipher) : List Nat :=
  (kdf vaultDemoSalt).encBlock
    (xorBytes (kdf vaultDemoSalt).iv (pkcs7Pad vaultDemoMsg))

/-- A connected connection with a live shell (failing input for the resize
claim and demonstration connection for close). -/
def c6DemoConn : SSHConnectionM :=
  { status := .connected, dimensions := ⟨80, 24⟩, hasShell := true }

/-- A registered user row used to instantiate the login theorems. -/
def c9DemoUser : DBUser :=
  { id := "u1", email := "a@b.co", name := "A", password_hash := "h",
    created_at := "2024-01-01", last_login := none, preferences := "{}" }

/-! ## General lemmas -/

theorem take_findIdx_eq_takeWhile (p : Char → Bool) (l : List Char) :
    l.take (l.findIdx p) = l.takeWhile fun a => !p a := by
  induction l with
  | nil => rfl
  | cons a l ih =>
    by_cases h : p a = true
    · simp [List.findIdx_cons, h, List.takeWhile_cons]
    · simp [List.findIdx_cons, h, List.takeWhile_cons, ih]

theorem mapGet_mapSet_self (m : ConnMap) (k : String) (v : SSHConnectionM) :
    mapGet (mapSet m k v) k = some v := by
  simp [mapGet, mapSet, List.find?_cons]

theorem mapGet_mapDelete_self (m : ConnMap) (k : String) :
    mapGet (mapDelete m k) k = none := by
  have h : (mapDelete m k).find? (fun p => p.1 == k) = none := by
    rw [List.find?_eq_none]
    intro x hx
    have hx2 := (List.mem_filter.mp hx).2
    simpa using hx2
  simp [mapGet, h]

theorem mapDelete_mapSet_self (m : ConnMap) (k : String) (v : SSHConnectionM) :
    mapDelete (mapSet m k v) k = mapDelete m k := by
  simp [mapDelete, mapSet, List.filter_cons, List.filter_filter]

/-! ## Claim theorems -/

/-- C3: the dangerous-command classifier is a pure function of the command
text (same input, same output); it returns true for commands matching the
listed high-risk patterns — witnessed on a canonical command for every one of
the fourteen regexes — and false on each of the curated safe commands
`ls -la`, `cat /etc/os-release` and `grep foo bar.txt`. -/
theorem C3_dangerous_classifier_spec :
    (∀ c₁ c₂ : String, c₁ = c₂ → isDangerousCommand c₁ = isDangerousCommand c₂) ∧
    (∀ c : String,
      (dangerousPatterns.any fun pat => pat (c.data.map jsToLowerChar)) = true →
        isDangerousCommand c = true) ∧
    (isDangerousCommand "rm -rf /" = true ∧
     isDangerousCommand "sudo rm -rf /home" = true ∧
     isDangerousCommand "dd if=/dev/zero of=/dev/sda" = true ∧
     isDangerousCommand "mkfs.ext4 /dev/sda1" = true ∧
     isDangerousCommand "fdisk /dev/sda" = true ∧
     isDangerousCommand "shutdown now" = true ∧
     isDangerousCommand "reboot" = true ∧
     isDangerousCommand "halt" = true ∧
     isDangerousCommand "poweroff" = true ∧
     isDangerousCommand "kill -9 1" = true ∧
     isDangerousCommand "pkill -f nginx" = true ∧
     isDangerousCommand "killall node" = true ∧
     isDangerousCommand "echo data > /dev/sda" = true ∧
     isDangerousCommand "cat disk.img > /dev/hdb" = true) ∧
    (isDangerousCommand "ls -la" = false ∧
     isDangerousCommand "cat /etc/os-release" = false ∧
     isDangerousCommand "grep foo bar.txt" = false) := by
  refine ⟨fun c₁ c₂ h => by rw [h], fun c h => h, by decide, by decide⟩

/-- C5 counterexample: `"Abcdef1#"` has eight characters, an uppercase
letter, a lowercase letter and a digit, yet `isStrongPassword` rejects it
(`#` is outside the regex's character class `[a-zA-Z\d@$!%*?&]`), so
registration answers 400 Validation. -/
theorem C5_password_counterexample :
    isStrongPassword "Abcdef1#" = false ∧
    8 ≤ "Abcdef1#".data.length ∧
    "Abcdef1#".data.any isAsciiUpperAlpha = true ∧
    "Abcdef1#".data.any isAsciiLowerAlpha = true ∧
    "Abcdef1#".data.any isAsciiDigit = true ∧
    registerValidationError "a@b.co" "Abcdef1#" "A" =
      some (400, "Password must be at least 8 characters long and contain uppercase, lowercase, and number") := by
  decide

theorem pwClassChar_not_lineTerm (c : Char) (h : pwClassChar c = true) :
    jsLineTerminator c = false := by
  by_contra hn
  have hlt : c = '\n' ∨ c = '\r' ∨ c = ' ' ∨ c = ' ' := by
    have : jsLineTerminator c = true := by simpa using hn
    simpa [jsLineTerminator, or_assoc] using this
  rcases hlt with rfl | rfl | rfl | rfl <;> exact absurd h (by decide)

theorem lookaheadDotStar_eq_any (cls : Char → Bool) (l : List Char)
    (h : ∀ c ∈ l, jsLineTerminator c = false) :
    lookaheadDotStar cls l = l.any cls := by
  induction l with
  | nil => rfl
  | cons c l ih =>
    simp [lookaheadDotStar, h c (by simp), ih fun c hc => h c (by simp [hc])]

/-- C5 (amended): registration accepts a password iff it has at least eight
characters, every character lies in the class `[a-zA-Z0-9@$!%*?&]`, and it
contains at least one lowercase letter, one uppercase letter and one digit;
`"abcdefgh"` is rejected with 400 Validation. -/
theorem C5_password_rule :
    (∀ p : String, isStrongPassword p = true ↔
      (8 ≤ p.data.length ∧ p.data.all pwClassChar = true ∧
       p.data.any isAsciiLowerAlpha = true ∧
       p.data.any isAsciiUpperAlpha = true ∧
       p.data.any isAsciiDigit = true)) ∧
    isStrongPassword "abcdefgh" = false ∧
    registerValidationError "a@b.co" "abcdefgh" "A" =
      some (400, "Password must be at least 8 characters long and contain uppercase, lowercase, and number") := by
  refine ⟨fun p => ?_, by decide, by decide⟩
  unfold isStrongPassword
  by_cases hall : p.data.all pwClassChar = true
  · have hnt : ∀ c ∈ p.data, jsLineTerminator c = false := fun c hc =>
      pwClassChar_not_lineTerm c (List.all_eq_true.mp hall c hc)
    rw [lookaheadDotStar_eq_any _ _ hnt, lookaheadDotStar_eq_any _ _ hnt,
        lookaheadDotStar_eq_any _ _ hnt]
    simp [hall]
    tauto
  · simp [hall]

/-- C6: `resizeTerminal` stores the supplied dimensions verbatim — at
cols = 1000, rows = 500 the stored dimensions are 1000×500 and the shell
window-change is issued with (rows, cols) = (500, 1000) — whereas the clamp
the specification describes exists only in the never-called
`parseTerminalDimensions`, which indeed maps into [1, 300] × [1, 100] and
sends 1000, 500 to 300×100. -/
theorem C6_resize_stores_unclamped :
    resizeTerminal [("c1", c6DemoConn)] "c1" ⟨1000, 500⟩ =
      .ok ([("c1", { c6DemoConn with dimensions := ⟨1000, 500⟩ })], 500, 1000) ∧
    parseTerminalDimensions 1000 500 = ⟨300, 100⟩ ∧
    (∀ cols rows : Nat,
      1 ≤ (parseTerminalDimensions cols rows).cols ∧
      (parseTerminalDimensions cols rows).cols ≤ 300 ∧
      1 ≤ (parseTerminalDimensions cols rows).rows ∧
      (parseTerminalDimensions cols rows).rows ≤ 100) := by
  refine ⟨by rfl, by rfl, fun cols rows => ?_⟩
  simp only [parseTerminalDimensions]
  omega

/-- C7: creating a connection and closing it removes the id from the map and
emits `status(disconnected)` exactly once; a second `closeConnection` on the
same id changes nothing and emits nothing. -/
theorem C7_create_close_idempotent (m : ConnMap) (connectionId : String) :
    mapGet (closeConnection (createConnectionOk m connectionId).1 connectionId).1
        connectionId = none ∧
    (closeConnection (createConnectionOk m connectionId).1 connectionId).2 =
      [.statusChange connectionId .disconnected none] ∧
    closeConnection
        (closeConnection (createConnectionOk m connectionId).1 connectionId).1
        connectionId =
      ((closeConnection (createConnectionOk m connectionId).1 connectionId).1,
       []) := by
  have hget := mapGet_mapSet_self m connectionId
    { status := .connected, dimensions := ⟨80, 24⟩, hasShell := true }
  have hclose : closeConnection (createConnectionOk m connectionId).1 connectionId =
      (mapDelete m connectionId,
       [.statusChange connectionId .disconnected none]) := by
    simp [closeConnection, createConnectionOk, hget, mapDelete_mapSet_self]
  rw [hclose]
  refine ⟨mapGet_mapDelete_self m connectionId, rfl, ?_⟩
  simp [closeConnection, mapGet_mapDelete_self m connectionId]

/-- C9: a login with an unregistered email and a login with a registered
email but failing password check produce identical responses: status 401 and
body `{success:false, error:"Invalid email or password"}` — the response does
not reveal which field was wrong. -/
theorem C9_login_indistinguishable (verify : String → String → Bool)
    (db : List DBUser) (email₁ pw₁ email₂ pw₂ : String)
    (h₁ : (db.find? fun u => u.email == email₁) = none)
    (h₂ : ∀ u, (db.find? fun u' => u'.email == email₂) = some u →
        verify pw₂ u.password_hash = false)
    (he₁ : email₁ ≠ "") (hp₁ : pw₁ ≠ "") (he₂ : email₂ ≠ "") (hp₂ : pw₂ ≠ "") :
    login verify db email₁ pw₁ = login verify db email₂ pw₂ ∧
    login verify db email₁ pw₁ =
      .failure ⟨401, false, "Invalid email or password"⟩ := by
  unfold login
  rw [if_neg (by simp [String.isEmpty_iff, he₁, hp₁]),
      if_neg (by simp [String.isEmpty_iff, he₂, hp₂]), h₁]
  cases hf : db.find? fun u' => u'.email == email₂ with
  | none => exact ⟨rfl, rfl⟩
  | some u => simp [h₂ u hf]

theorem C9_login_indistinguishable_witness :
    login (fun _ _ => false) [c9DemoUser] "x@y.co" "pw1" =
      login (fun _ _ => false) [c9DemoUser] "a@b.co" "wrong" ∧
    login (fun _ _ => false) [c9DemoUser] "x@y.co" "pw1" =
      .failure ⟨401, false, "Invalid email or password"⟩ :=
  C9_login_indistinguishable (fun _ _ => false) [c9DemoUser] "x@y.co" "pw1"
    "a@b.co" "wrong" (by decide) (fun _ _ => rfl)
    (by decide) (by decide) (by decide) (by decide)

/-- C10: a `terminal:input` whose session id is not in the broker's mapping,
or whose payload is the empty string, forwards nothing to any shell, emits
nothing to the client, and leaves the session map unchanged. -/
theorem C10_terminal_input_ignored (sessions : List (String × String))
    (sessionId payload : String)
    (h : (sessions.find? fun p => p.1 == sessionId) = none ∨ payload = "") :
    handleTerminalInput sessions sessionId payload = (sessions, [], []) := by
  unfold handleTerminalInput
  rcases h with h | h
  · simp [h]
  · cases hf : sessions.find? fun p => p.1 == sessionId with
    | none => rfl
    | some q => subst h; simp [String.isEmpty]

theorem C10_terminal_input_ignored_witness :
    handleTerminalInput [("s1", "c1")] "s1" "" = ([("s1", "c1")], [], []) :=
  C10_terminal_input_ignored [("s1", "c1")] "s1" "" (Or.inr rfl)

theorem filter_active_self (db : List DBProfile) (p : DBProfile → Bool) :
    ((db.filter fun q => q.is_active == 1).filter
        fun q => p q && q.is_active == 1) =
      db.filter fun q => p q && q.is_active == 1 := by
  rw [List.filter_filter]
  apply List.filter_congr
  intro x _
  cases hp : p x <;> cases ha : x.is_active == 1 <;> simp [hp, ha]

theorem find?_filter_active (db : List DBProfile) (p : DBProfile → Bool) :
    ((db.filter fun q => q.is_active == 1).find?
        fun q => p q && q.is_active == 1) =
      db.find? fun q => p q && q.is_active == 1 := by
  induction db with
  | nil => rfl
  | cons x db ih =>
    by_cases ha : x.is_active == 1
    · by_cases hp : p x <;>
        simp [List.filter_cons, List.find?_cons, ha, hp, ih]
    · have ha' : (x.is_active == 1) = false := by simpa using ha
      simp [List.filter_cons, List.find?_cons, ha', ih]

/-- C4: a soft-deleted profile (active flag cleared) is invisible everywhere:
the listing, the creation-name-uniqueness check and the active-profile lookup
are unchanged if inactive rows are removed from the store; every listed row is
the credential-free projection of a stored active row of the same user (and
that projection ignores the encrypted credentials blob); and for a
soft-deleted profile P (with ids unique in the store), the listing never
shows P's id, update answers 404 NotFound, and connect emits the
"Profile not found" error status. -/
theorem C4_soft_deleted_invisible :
    (∀ db uid, getProfiles db uid =
        getProfiles (db.filter fun p => p.is_active == 1) uid) ∧
    (∀ db uid nm, profileNameConflict db uid nm =
        profileNameConflict (db.filter fun p => p.is_active == 1) uid nm) ∧
    (∀ db pid uid, findActiveProfile db pid uid =
        findActiveProfile (db.filter fun p => p.is_active == 1) pid uid) ∧
    (∀ db uid r, r ∈ getProfiles db uid →
        ∃ p, p ∈ db ∧ r = toProfileRow p ∧ p.is_active = 1 ∧ p.user_id = uid) ∧
    (∀ p c, toProfileRow { p with encrypted_credentials := c } = toProfileRow p) ∧
    (∀ db uid sid P, P ∈ db → P.is_active = 0 →
        (∀ q, q ∈ db → q.id = P.id → q = P) →
        (∀ r, r ∈ getProfiles db uid → r.id ≠ P.id) ∧
        updateProfileNotFound db uid P.id = some (404, "Profile not found") ∧
        handleSSHConnectMissing db uid sid P.id =
          some [.sshStatus sid .connecting none,
                .sshStatus sid .error (some "Profile not found")]) := by
  have hmem : ∀ db uid r, r ∈ getProfiles db uid →
      ∃ p, p ∈ db ∧ r = toProfileRow p ∧ p.is_active = 1 ∧ p.user_id = uid := by
    intro db uid r hr
    rw [getProfiles, List.mem_mergeSort] at hr
    obtain ⟨p, hp, rfl⟩ := List.mem_map.mp hr
    obtain ⟨hpdb, hpred⟩ := List.mem_filter.mp hp
    have h1 := (Bool.and_eq_true _ _).mp hpred
    exact ⟨p, hpdb, rfl, by simpa using h1.2, by simpa using h1.1⟩
  refine ⟨?_, ?_, ?_, hmem, fun p c => rfl, ?_⟩
  · intro db uid
    unfold getProfiles
    rw [filter_active_self db fun p => p.user_id == uid]
  · intro db uid nm
    unfold profileNameConflict
    rw [show (fun p : DBProfile => p.user_id == uid && p.name == nm && p.is_active == 1) =
          (fun p : DBProfile => (p.user_id == uid && p.name == nm) && p.is_active == 1)
        from by funext p; simp [Bool.and_assoc],
        find?_filter_active db fun p => p.user_id == uid && p.name == nm]
  · intro db pid uid
    unfold findActiveProfile
    rw [show (fun p : DBProfile => p.id == pid && p.user_id == uid && p.is_active == 1) =
          (fun p : DBProfile => (p.id == pid && p.user_id == uid) && p.is_active == 1)
        from by funext p; simp [Bool.and_assoc],
        find?_filter_active db fun p => p.id == pid && p.user_id == uid]
  · intro db uid sid P hP hdel huniq
    have hfind : findActiveProfile db P.id uid = none := by
      rw [findActiveProfile, List.find?_eq_none]
      intro q hq hcontra
      simp only [Bool.and_eq_true, beq_iff_eq] at hcontra
      obtain ⟨⟨hid, _⟩, hact⟩ := hcontra
      have := huniq q hq hid
      subst this
      omega
    refine ⟨?_, by simp [updateProfileNotFound, hfind],
            by simp [handleSSHConnectMissing, hfind]⟩
    intro r hr hrid
    obtain ⟨p, hpdb, rfl, hact, _⟩ := hmem db uid r hr
    have : p = P := huniq p hpdb hrid
    subst this
    omega

/-- C1: six rapid wrong-password logins from one source address.  Because the
app-level middleware already consumes from the auth bucket on auth paths and
the login route consumes from the same bucket again, each admitted login
costs two of the five points: requests 1–2 answer 401 and request 3 already
answers 429 (retryAfter 900 ∈ (0, 900]) — not five 401s followed by a 429 on
the sixth as claimed.  The bucket by itself does admit exactly five consumes
per 15-minute window before rejecting with retryAfter 900 (second
conjunct). -/
theorem C1_login_rate_limit (t : Nat) :
    loginSequence t 6 none =
      [.unauthorized, .unauthorized,
       .rateLimited 900 "Too many authentication attempts",
       .rateLimited 900 "Too many requests",
       .rateLimited 900 "Too many requests",
       .rateLimited 900 "Too many requests"] ∧
    rlConsumeSeq t 6 none =
      [(true, 900), (true, 900), (true, 900), (true, 900), (true, 900),
       (false, 900)] ∧
    0 < 900 ∧ 900 ≤ 900 := by
  have a1 : rlConsume 5 900 900 t none =
      ⟨true, 900000, some ⟨1, t + 900000⟩⟩ := by
    simp [rlConsume, Nat.add_sub_cancel_left]
  have astep : ∀ k : Nat, k < 5 →
      rlConsume 5 900 900 t (some ⟨k, t + 900000⟩) =
        ⟨true, 900000, some ⟨k + 1, t + 900000⟩⟩ := by
    intro k hk
    simp [rlConsume, lt_add_iff_pos_right, Nat.add_sub_cancel_left]
    omega
  have a2 : rlConsume 5 900 900 t (some ⟨1, t + 900000⟩) =
      ⟨true, 900000, some ⟨2, t + 900000⟩⟩ := by simpa using astep 1 (by omega)
  have a3 : rlConsume 5 900 900 t (some ⟨2, t + 900000⟩) =
      ⟨true, 900000, some ⟨3, t + 900000⟩⟩ := by simpa using astep 2 (by omega)
  have a4 : rlConsume 5 900 900 t (some ⟨3, t + 900000⟩) =
      ⟨true, 900000, some ⟨4, t + 900000⟩⟩ := by simpa using astep 3 (by omega)
  have a5 : rlConsume 5 900 900 t (some ⟨4, t + 900000⟩) =
      ⟨true, 900000, some ⟨5, t + 900000⟩⟩ := by simpa using astep 4 (by omega)
  have a6 : rlConsume 5 900 900 t (some ⟨5, t + 900000⟩) =
      ⟨false, 900000, some ⟨6, t + 900000⟩⟩ := by
    simp [rlConsume, lt_add_iff_pos_right, Nat.add_sub_cancel_left]
  have arej : ∀ k : Nat, 6 ≤ k →
      rlConsume 5 900 900 t (some ⟨k, t + 900000⟩) =
        ⟨false, 900000, some ⟨k + 1, t + 900000⟩⟩ := by
    intro k hk
    simp [rlConsume, lt_add_iff_pos_right, Nat.add_sub_cancel_left]
    omega
  have a7 : rlConsume 5 900 900 t (some ⟨6, t + 900000⟩) =
      ⟨false, 900000, some ⟨7, t + 900000⟩⟩ := by simpa using arej 6 (by omega)
  have a8 : rlConsume 5 900 900 t (some ⟨7, t + 900000⟩) =
      ⟨false, 900000, some ⟨8, t + 900000⟩⟩ := by simpa using arej 7 (by omega)
  have a9 : rlConsume 5 900 900 t (some ⟨8, t + 900000⟩) =
      ⟨false, 900000, some ⟨9, t + 900000⟩⟩ := by simpa using arej 8 (by omega)
  have hretry : retryAfterSecs 900000 = 900 := by norm_num [retryAfterSecs]
  refine ⟨?_, ?_, by omega, by omega⟩
  · simp [loginSequence, loginRequestWrongPassword,
      a1, a2, a3, a4, a5, a6, a7, a8, a9, hretry]
  · simp [rlConsumeSeq, a1, a2, a3, a4, a5, a6, hretry]

/-- C8 counterexample: 2500 ms after a shell close (or transport error) event
the connection's state is still DISCONNECTED (resp. ERROR), not
RECONNECTING — the code only sets RECONNECTING when the 5 s timer fires,
contradicting "the state is `reconnecting` during the whole wait". -/
theorem C8_reconnect_counterexample :
    statusAt (shellCloseAssignments 0 100 false) 2500 = .disconnected ∧
    statusAt (shellCloseAssignments 0 100 false) 2500 ≠ .reconnecting ∧
    statusAt (transportErrorAssignments 0 100 false) 2500 = .error := by
  decide

/-- C8 (amended): after a shell close (resp. transport error) at time `t`,
exactly one reconnection attempt is scheduled, at `t + 5000`; during the 5 s
wait the state is DISCONNECTED (resp. ERROR); from timer fire to outcome the
state is RECONNECTING; a failed attempt leaves ERROR thereafter with no
further attempt scheduled; and the attempt reuses the stored decrypted
credentials snapshot — the reconnection config coincides with the creation
config on every snapshot. -/
theorem C8_reconnect_behaviour (t dialMs : Nat) (reconnectOk : Bool) :
    ((shellCloseAssignments t dialMs reconnectOk).filter
        (fun a => a.2 == .reconnecting) = [(t + 5000, .reconnecting)] ∧
     (transportErrorAssignments t dialMs reconnectOk).filter
        (fun a => a.2 == .reconnecting) = [(t + 5000, .reconnecting)]) ∧
    (∀ q, t ≤ q → q < t + 5000 →
      statusAt (shellCloseAssignments t dialMs reconnectOk) q = .disconnected ∧
      statusAt (transportErrorAssignments t dialMs reconnectOk) q = .error) ∧
    (∀ q, t + 5000 ≤ q → q < t + 5000 + dialMs →
      statusAt (shellCloseAssignments t dialMs reconnectOk) q = .reconnecting ∧
      statusAt (transportErrorAssignments t dialMs reconnectOk) q = .reconnecting) ∧
    (∀ q, reconnectOk = false → t + 5000 + dialMs ≤ q →
      statusAt (shellCloseAssignments t dialMs reconnectOk) q = .error ∧
      statusAt (transportErrorAssignments t dialMs reconnectOk) q = .error) ∧
    (∀ credentials, reconnectionConfig credentials =
      createConnectionConfig credentials) := by
  refine ⟨⟨?_, ?_⟩, ?_, ?_, ?_, fun credentials => rfl⟩
  · cases reconnectOk <;> rfl
  · cases reconnectOk <;> rfl
  · intro q h1 h2
    constructor <;>
      · simp only [statusAt, shellCloseAssignments, transportErrorAssignments,
          List.foldl]
        rw [if_neg (by omega), if_neg (by omega), if_pos (by omega)]
  · intro q h1 h2
    constructor <;>
      · simp only [statusAt, shellCloseAssignments, transportErrorAssignments,
          List.foldl]
        rw [if_neg (by omega), if_pos (by omega)]
  · intro q hOk h1
    subst hOk
    constructor <;>
      · simp only [statusAt, shellCloseAssignments, transportErrorAssignments,
          List.foldl]
        rw [if_pos (by omega)]
        rfl

theorem b64Parse_eq_takeWhile (cs : List Char) :
    b64Parse cs = b64ParseLoop (cs.takeWhile fun c => !(c == '=')) := by
  rw [b64Parse, take_findIdx_eq_takeWhile]

theorem b64Char_lt_ne_pad : ∀ v < 64, (b64Char v == '=') = false := by decide

theorem b64Char_mod_ne_pad (v : Nat) : (b64Char (v % 64) == '=') = false :=
  b64Char_lt_ne_pad _ (Nat.mod_lt _ (by norm_num))

theorem b64Val_b64Char : ∀ v < 64, b64Val (b64Char v) = v := by decide

theorem b64Val_b64Char_mod (v : Nat) : b64Val (b64Char (v % 64)) = v % 64 :=
  b64Val_b64Char _ (Nat.mod_lt _ (by norm_num))

theorem b64xor1_lt : ∀ v < 64, v ^^^ 1 < 64 := by decide

theorem b64xor1_div4 : ∀ v < 64, (v ^^^ 1) / 4 = v / 4 := by decide

theorem b64Char_xor1_ne : ∀ v < 64, b64Char (v ^^^ 1) ≠ b64Char v := by decide

theorem b64EncodeLoop_length (bs : List Nat) :
    (b64EncodeLoop bs).length = (bs.length + 2) / 3 * 4 := by
  induction bs using b64EncodeLoop.induct with
  | case1 b0 b1 b2 rest ih => simp [b64EncodeLoop, ih]; omega
  | case2 b0 b1 => simp [b64EncodeLoop]
  | case3 b0 => simp [b64EncodeLoop]
  | case4 => rfl

theorem b64ParseLoop_encode (bs : List Nat) :
    (∀ x ∈ bs, x < 256) →
    b64ParseLoop ((b64EncodeLoop bs).takeWhile fun c => !(c == '=')) = bs := by
  induction bs using b64EncodeLoop.induct with
  | case1 b0 b1 b2 rest ih =>
    intro h
    have hb0 : b0 < 256 := h b0 (by simp)
    have hb1 : b1 < 256 := h b1 (by simp)
    have hb2 : b2 < 256 := h b2 (by simp)
    simp only [b64EncodeLoop, List.takeWhile_cons, b64Char_mod_ne_pad,
      Bool.not_false, if_true]
    simp only [b64ParseLoop, b64Val_b64Char_mod]
    rw [ih fun x hx => h x (by simp [hx])]
    refine List.cons_eq_cons.mpr ⟨by omega, ?_⟩
    refine List.cons_eq_cons.mpr ⟨by omega, ?_⟩
    refine List.cons_eq_cons.mpr ⟨by omega, rfl⟩
  | case2 b0 b1 =>
    intro h
    have hb0 : b0 < 256 := h b0 (by simp)
    have hb1 : b1 < 256 := h b1 (by simp)
    simp only [b64EncodeLoop, List.takeWhile_cons, b64Char_mod_ne_pad,
      Bool.not_false, if_true, beq_self_eq_true, Bool.not_true, if_false]
    simp only [b64ParseLoop, b64Val_b64Char_mod]
    refine List.cons_eq_cons.mpr ⟨by omega, ?_⟩
    refine List.cons_eq_cons.mpr ⟨by omega, rfl⟩
  | case3 b0 =>
    intro h
    have hb0 : b0 < 256 := h b0 (by simp)
    simp only [b64EncodeLoop, List.takeWhile_cons, b64Char_mod_ne_pad,
      Bool.not_false, if_true, beq_self_eq_true, Bool.not_true, if_false]
    simp only [b64ParseLoop, b64Val_b64Char_mod]
    refine List.cons_eq_cons.mpr ⟨by omega, rfl⟩
  | case4 => intro h; rfl

theorem b64Encode_tamper (bs : List Nat) :
    (∀ x ∈ bs, x < 256) → bs.length % 3 = 2 →
    tamperAt ((b64EncodeLoop bs).length - 2) (b64EncodeLoop bs) ≠
      b64EncodeLoop bs ∧
    b64ParseLoop ((tamperAt ((b64EncodeLoop bs).length - 2)
        (b64EncodeLoop bs)).takeWhile fun c => !(c == '=')) = bs := by
  induction bs using b64EncodeLoop.induct with
  | case1 b0 b1 b2 rest ih =>
    intro h h3
    have h3r : rest.length % 3 = 2 := by
      simp only [List.length_cons] at h3; omega
    have hb0 : b0 < 256 := h b0 (by simp)
    have hb1 : b1 < 256 := h b1 (by simp)
    have hb2 : b2 < 256 := h b2 (by simp)
    have hElen : (b64EncodeLoop rest).length = (rest.length + 2) / 3 * 4 :=
      b64EncodeLoop_length rest
    have hidx : (b64EncodeLoop (b0 :: b1 :: b2 :: rest)).length - 2 =
        ((((b64EncodeLoop rest).length - 2) + 1) + 1) + 1 + 1 := by
      simp only [b64EncodeLoop_length, List.length_cons]; omega
    obtain ⟨hne, hparse⟩ := ih (fun x hx => h x (by simp [hx])) h3r
    rw [hidx]
    simp only [b64EncodeLoop]
    simp only [tamperAt, List.getD_cons_succ, List.set_cons_succ]
    have hfold : (b64EncodeLoop rest).set ((b64EncodeLoop rest).length - 2)
        (tamperB64Char ((b64EncodeLoop rest).getD
          ((b64EncodeLoop rest).length - 2) 'A')) =
        tamperAt ((b64EncodeLoop rest).length - 2) (b64EncodeLoop rest) := rfl
    rw [hfold]
    constructor
    · intro hcontra
      simp only [List.cons_eq_cons] at hcontra
      exact hne hcontra.2.2.2.2
    · simp only [List.takeWhile_cons, b64Char_mod_ne_pad, Bool.not_false,
        if_true]
      simp only [b64ParseLoop, b64Val_b64Char_mod]
      rw [hparse]
      refine List.cons_eq_cons.mpr ⟨by omega, ?_⟩
      refine List.cons_eq_cons.mpr ⟨by omega, ?_⟩
      refine List.cons_eq_cons.mpr ⟨by omega, rfl⟩
  | case2 b0 b1 =>
    intro h h3
    have hb0 : b0 < 256 := h b0 (by simp)
    have hb1 : b1 < 256 := h b1 (by simp)
    have hidx : (b64EncodeLoop [b0, b1]).length - 2 = 2 := by
      rw [b64EncodeLoop_length]
      simp only [List.length_cons, List.length_nil]
    rw [hidx]
    simp only [b64EncodeLoop]
    simp only [tamperAt, List.getD_cons_succ, List.getD_cons_zero,
      List.set_cons_succ, List.set_cons_zero]
    simp only [tamperB64Char, b64Val_b64Char_mod]
    have hvlt : (b0 * 65536 + b1 * 256) / 64 % 64 < 64 :=
      Nat.mod_lt _ (by norm_num)
    constructor
    · intro hcontra
      simp only [List.cons_eq_cons] at hcontra
      exact b64Char_xor1_ne _ hvlt hcontra.2.2.1
    · have hz : (b64Char ((b0 * 65536 + b1 * 256) / 64 % 64 ^^^ 1) == '=') =
          false := b64Char_lt_ne_pad _ (b64xor1_lt _ hvlt)
      simp only [List.takeWhile_cons, b64Char_mod_ne_pad, hz, Bool.not_false,
        if_true, beq_self_eq_true, Bool.not_true, if_false]
      have hv' : b64Val (b64Char ((b0 * 65536 + b1 * 256) / 64 % 64 ^^^ 1)) =
          (b0 * 65536 + b1 * 256) / 64 % 64 ^^^ 1 :=
        b64Val_b64Char _ (b64xor1_lt _ hvlt)
      simp only [b64ParseLoop, b64Val_b64Char_mod, hv',
        b64xor1_div4 _ hvlt]
      refine List.cons_eq_cons.mpr ⟨by omega, ?_⟩
      refine List.cons_eq_cons.mpr ⟨by omega, rfl⟩
  | case3 b0 =>
    intro h h3
    simp only [List.length_cons, List.length_nil] at h3
    omega
  | case4 =>
    intro h h3
    simp only [List.length_nil] at h3
    omega

theorem exists_cons_of_length_succ {α : Type} {l : List α} {n : Nat}
    (h : l.length = n + 1) : ∃ a t, l = a :: t ∧ t.length = n := by
  cases l with
  | nil => simp at h
  | cons a t => exact ⟨a, t, rfl, by simpa using h⟩

theorem toBlocks_of_length16 (l : List Nat) (h : l.length = 16) :
    toBlocks l = [l] := by
  obtain ⟨a0, t0, rfl, h0⟩ := exists_cons_of_length_succ h
  obtain ⟨a1, t1, rfl, h1⟩ := exists_cons_of_length_succ h0
  obtain ⟨a2, t2, rfl, h2⟩ := exists_cons_of_length_succ h1
  obtain ⟨a3, t3, rfl, h3⟩ := exists_cons_of_length_succ h2
  obtain ⟨a4, t4, rfl, h4⟩ := exists_cons_of_length_succ h3
  obtain ⟨a5, t5, rfl, h5⟩ := exists_cons_of_length_succ h4
  obtain ⟨a6, t6, rfl, h6⟩ := exists_cons_of_length_succ h5
  obtain ⟨a7, t7, rfl, h7⟩ := exists_cons_of_length_succ h6
  obtain ⟨a8, t8, rfl, h8⟩ := exists_cons_of_length_succ h7
  obtain ⟨a9, t9, rfl, h9⟩ := exists_cons_of_length_succ h8
  obtain ⟨a10, t10, rfl, h10⟩ := exists_cons_of_length_succ h9
  obtain ⟨a11, t11, rfl, h11⟩ := exists_cons_of_length_succ h10
  obtain ⟨a12, t12, rfl, h12⟩ := exists_cons_of_length_succ h11
  obtain ⟨a13, t13, rfl, h13⟩ := exists_cons_of_length_succ h12
  obtain ⟨a14, t14, rfl, h14⟩ := exists_cons_of_length_succ h13
  obtain ⟨a15, t15, rfl, h15⟩ := exists_cons_of_length_succ h14
  obtain rfl := List.length_eq_zero.mp h15
  rfl

theorem xorBytes_xorBytes_cancel (a b : List Nat) (h : a.length = b.length) :
    xorBytes a (xorBytes a b) = b := by
  induction a generalizing b with
  | nil =>
    cases b with
    | nil => rfl
    | cons y ys => simp at h
  | cons x xs ih =>
    cases b with
    | nil => simp at h
    | cons y ys =>
      rw [show xorBytes (x :: xs) (y :: ys) = (x ^^^ y) :: xorBytes xs ys
          from rfl,
        show xorBytes (x :: xs) ((x ^^^ y) :: xorBytes xs ys) =
          (x ^^^ (x ^^^ y)) :: xorBytes xs (xorBytes xs ys) from rfl]
      refine List.cons_eq_cons.mpr ⟨?_, ih ys (by simpa using h)⟩
      rw [← Nat.xor_assoc, Nat.xor_self, Nat.zero_xor]

/-- C2: at the failing input — plaintext `"s3cretpw"`, salt 1…8 — changing
character 42 of the stored ciphertext string to its Base64 sibling produces a
different string that still decrypts, with no error, to the original
plaintext; the untampered string decrypts to the same.  This holds for every
key derivation `kdf` (the hypotheses only say that the block cipher produces
a 16-byte block of bytes and that decryption inverts encryption on that one
block), so in particular for AES-256 under CryptoJS's EvpKDF: the cipher is
never even consulted by the tamper, only the malleable Base64 coat. -/
theorem C2_vault_tamper_undetected (kdf : List Nat → VaultCipher)
    (hlen : (vaultDemoBlock kdf).length = 16)
    (hbytes : ∀ x ∈ vaultDemoBlock kdf, x < 256)
    (hiv : (kdf vaultDemoSalt).iv.length = 16)
    (hdec : (kdf vaultDemoSalt).decBlock (vaultDemoBlock kdf) =
      xorBytes (kdf vaultDemoSalt).iv (pkcs7Pad vaultDemoMsg)) :
    tamperAt 42 (vaultEncrypt kdf vaultDemoSalt vaultDemoMsg) ≠
      vaultEncrypt kdf vaultDemoSalt vaultDemoMsg ∧
    vaultDecrypt kdf
        (tamperAt 42 (vaultEncrypt kdf vaultDemoSalt vaultDemoMsg)) =
      some "s3cretpw".data ∧
    vaultDecrypt kdf (vaultEncrypt kdf vaultDemoSalt vaultDemoMsg) =
      some "s3cretpw".data := by
  have henc : vaultEncrypt kdf vaultDemoSalt vaultDemoMsg =
      b64EncodeLoop (saltedMagic ++ vaultDemoSalt ++ vaultDemoBlock kdf) := by
    simp only [vaultEncrypt]
    rw [show toBlocks (pkcs7Pad vaultDemoMsg) = [pkcs7Pad vaultDemoMsg]
        from rfl]
    simp only [cbcEncryptBlocks, List.flatten_cons, List.flatten_nil,
      List.append_nil]
    rfl
  have hmagic : ∀ x ∈ saltedMagic, x < 256 := by decide
  have hsalt : ∀ x ∈ vaultDemoSalt, x < 256 := by decide
  have hall : ∀ x ∈ saltedMagic ++ vaultDemoSalt ++ vaultDemoBlock kdf,
      x < 256 := by
    intro x hx
    rcases List.mem_append.mp hx with hx | hx
    · rcases List.mem_append.mp hx with hx | hx
      · exact hmagic x hx
      · exact hsalt x hx
    · exact hbytes x hx
  have hlen32 : (saltedMagic ++ vaultDemoSalt ++ vaultDemoBlock kdf).length =
      32 := by
    simp [saltedMagic, vaultDemoSalt, hlen]
  have hmod : (saltedMagic ++ vaultDemoSalt ++ vaultDemoBlock kdf).length % 3 =
      2 := by rw [hlen32]
  have hEtotal :
      (b64EncodeLoop (saltedMagic ++ vaultDemoSalt ++ vaultDemoBlock kdf)).length
        = 44 := by
    rw [b64EncodeLoop_length, hlen32]
  have hidx42 : (42 : Nat) =
      (b64EncodeLoop (saltedMagic ++ vaultDemoSalt ++ vaultDemoBlock kdf)).length
        - 2 := by rw [hEtotal]
  obtain ⟨hne, hparse_t⟩ := b64Encode_tamper _ hall hmod
  have hparse := b64ParseLoop_encode _ hall
  have hdecrypt : ∀ s : List Char,
      b64Parse s = saltedMagic ++ vaultDemoSalt ++ vaultDemoBlock kdf →
      vaultDecrypt kdf s = some "s3cretpw".data := by
    intro s hs
    rw [List.append_assoc] at hs
    have hdrop16 :
        (saltedMagic ++ (vaultDemoSalt ++ vaultDemoBlock kdf)).drop 16 =
          vaultDemoBlock kdf := by
      rw [show (16 : Nat) = 8 + 8 from rfl, ← List.drop_drop,
        List.drop_left' (show saltedMagic.length = 8 from rfl),
        List.drop_left' (show vaultDemoSalt.length = 8 from rfl)]
    simp only [vaultDecrypt, hs]
    rw [List.take_left' (show saltedMagic.length = 8 from rfl), if_pos rfl,
      List.drop_left' (show saltedMagic.length = 8 from rfl),
      List.take_left' (show vaultDemoSalt.length = 8 from rfl), hdrop16,
      toBlocks_of_length16 _ hlen]
    simp only [cbcDecryptBlocks, List.flatten_cons, List.flatten_nil,
      List.append_nil]
    rw [hdec, xorBytes_xorBytes_cancel _ _ (by rw [hiv]; decide)]
    decide
  refine ⟨?_, ?_, ?_⟩
  · rw [henc, hidx42]
    exact hne
  · refine hdecrypt _ ?_
    rw [henc, hidx42, b64Parse_eq_takeWhile]
    exact hparse_t
  · refine hdecrypt _ ?_
    rw [henc, b64Parse_eq_takeWhile]
    exact hparse

theorem C2_vault_tamper_undetected_witness :
    tamperAt 42 (vaultEncrypt involutionKdf vaultDemoSalt vaultDemoMsg) ≠
      vaultEncrypt involutionKdf vaultDemoSalt vaultDemoMsg ∧
    vaultDecrypt involutionKdf
        (tamperAt 42 (vaultEncrypt involutionKdf vaultDemoSalt vaultDemoMsg)) =
      some "s3cretpw".data ∧
    vaultDecrypt involutionKdf
        (vaultEncrypt involutionKdf vaultDemoSalt vaultDemoMsg) =
      some "s3cretpw".data :=
  C2_vault_tamper_undetected involutionKdf (by decide) (by decide) (by decide)
    (by decide)
